import Mathlib

/-!
Shallow embedding of the Streamarr plugin's catalog resolution and caching
engine (StreamarrCatalogEntry and StreamarrApiClient) together with proofs
about the spec's claims.

Modelling conventions:
- C# strings are Lean String; nullable strings are Option String.
- Ordinal case-insensitive comparison folds each UTF-16 unit; the folding is
  modelled on the Basic Latin and Latin-1 ranges (the only code points the
  program's literals and the claims' inputs use); other code points compare
  raw.
- Regular expressions are modelled by equivalent explicit scanners.
- .NET int is modelled as Int; int.TryParse of a digit run fails above
  Int32.MaxValue, which the digit-parsing function reflects.
-/

namespace Streamarr

/-- Simple case folding on a character's code point, restricted to Basic
Latin (A-Z) and Latin-1 letters (U+00C0-U+00D6, U+00D8-U+00DE); this is what
StringComparison.OrdinalIgnoreCase performs on those ranges. -/
def foldCode (c : Char) : Nat :=
  if (65 ≤ c.toNat ∧ c.toNat ≤ 90) ∨ (192 ≤ c.toNat ∧ c.toNat ≤ 214) ∨
      (216 ≤ c.toNat ∧ c.toNat ≤ 222)
  then c.toNat + 32 else c.toNat

/-- Whitespace code points recognized by Char.IsWhiteSpace within Latin-1:
TAB, LF, VT, FF, CR, SPACE, NEL, NBSP. -/
def isWhiteCode (n : Nat) : Bool :=
  decide (n = 9 ∨ n = 10 ∨ n = 11 ∨ n = 12 ∨ n = 13 ∨ n = 32 ∨ n = 133 ∨ n = 160)

def isWhiteChar (c : Char) : Bool := isWhiteCode c.toNat

/-- string.IsNullOrWhiteSpace for a non-null string (empty or all whitespace). -/
def isNullOrWhiteSpace (s : String) : Bool := s.data.all isWhiteChar

/-- string.IsNullOrWhiteSpace on a nullable string. -/
def isNullOrWhiteSpaceOpt (s : Option String) : Bool :=
  match s with
  | none => true
  | some t => isNullOrWhiteSpace t

/-- string.Equals(a, b, StringComparison.OrdinalIgnoreCase). -/
def ordIgnoreCaseEq (a b : String) : Bool :=
  a.data.map foldCode == b.data.map foldCode

/-- Does l start with p? -/
def listStartsWith {α : Type} [BEq α] : List α → List α → Bool
  | _, [] => true
  | [], _ :: _ => false
  | c :: cs, p :: ps => c == p && listStartsWith cs ps

/-- Does l contain p as a contiguous run?  Models string.Contains. -/
def listHasSub {α : Type} [BEq α] : List α → List α → Bool
  | [], p => listStartsWith ([] : List α) p
  | l@(_ :: cs), p => listStartsWith l p || listHasSub cs p

/-- string.Contains(needle, StringComparison.OrdinalIgnoreCase). -/
def containsIgnoreCase (hay needle : String) : Bool :=
  listHasSub (hay.data.map foldCode) (needle.data.map foldCode)

/-- string.Trim(): strip leading and trailing whitespace. -/
def trimChars (l : List Char) : List Char :=
  ((l.dropWhile isWhiteChar).reverse.dropWhile isWhiteChar).reverse

def trimString (s : String) : String := String.mk (trimChars s.data)

/-- Lowercasing of one character (ToLowerInvariant) on the modelled ranges. -/
def lowerChar (c : Char) : Char :=
  if (65 ≤ c.toNat ∧ c.toNat ≤ 90) ∨ (192 ≤ c.toNat ∧ c.toNat ≤ 214) ∨
      (216 ≤ c.toNat ∧ c.toNat ≤ 222)
  then Char.ofNat (c.toNat + 32) else c

def toLowerInvariant (s : String) : String := String.mk (s.data.map lowerChar)

def isAsciiDigit (c : Char) : Bool := 48 ≤ c.toNat && c.toNat ≤ 57

/-- Decimal value of a digit run. -/
def digitsVal (ds : List Char) : Nat :=
  ds.foldl (fun a c => a * 10 + (c.toNat - 48)) 0

/-- int.TryParse(digits, NumberStyles.Integer, CultureInfo.InvariantCulture):
succeeds on a digit run whose value fits in Int32. -/
def parseInt32 (ds : List Char) : Option Int :=
  if digitsVal ds ≤ 2147483647 then some (Int.ofNat (digitsVal ds)) else none

/-- Word characters (regex word class) within the modelled Latin-1 ranges:
ASCII letters, digits, underscore and Latin-1 letters. -/
def isWordChar (c : Char) : Bool :=
  let n := c.toNat
  (48 ≤ n && n ≤ 57) || (65 ≤ n && n ≤ 90) || (97 ≤ n && n ≤ 122) || n == 95 ||
    (192 ≤ n && n ≤ 214) || (216 ≤ n && n ≤ 246) || (248 ≤ n && n ≤ 255)

/-- Match a literal pattern case-insensitively at the head of the input,
returning the remaining input on success. -/
def matchLit : List Char → List Char → Option (List Char)
  | [], rest => some rest
  | _ :: _, [] => none
  | k :: ks, c :: cs => if foldCode c == foldCode k then matchLit ks cs else none

/-- Split the input at its first colon, returning the (possibly empty)
segment before it and the remainder after it. -/
def splitColon : List Char → Option (List Char × List Char)
  | [] => none
  | c :: cs =>
    if c == ':' then some ([], cs)
    else
      match splitColon cs with
      | none => none
      | some (a, b) => some (c :: a, b)

/-- The anchored, case-insensitive EpisodeIdRegex
dizibox:(slug):s(season)e(episode) where slug is one or more non-colon
characters and season/episode are digit runs. Returns the captured slug and
the season and episode digit runs. -/
def matchEpisodeId (id : List Char) : Option (List Char × List Char × List Char) :=
  match matchLit "dizibox:".data id with
  | none => none
  | some rest =>
    match splitColon rest with
    | none => none
    | some (slug, tail) =>
      if slug.isEmpty then none
      else
        match tail with
        | [] => none
        | c :: t1 =>
          if foldCode c == foldCode 's' then
            let sds := t1.takeWhile isAsciiDigit
            let t2 := t1.dropWhile isAsciiDigit
            if sds.isEmpty then none
            else
              match t2 with
              | [] => none
              | c2 :: t3 =>
                if foldCode c2 == foldCode 'e' then
                  let eds := t3.takeWhile isAsciiDigit
                  let t4 := t3.dropWhile isAsciiDigit
                  if eds.isEmpty then none
                  else if t4.isEmpty then some (slug, sds, eds)
                  else none
                else none
          else none

/-- One attempt of the subtitle regex at the current position: the keyword
must match case-insensitively, be delimited by word boundaries, and be
followed by optional whitespace and at least one digit.  Returns the digit
run captured by the num group. -/
def tryKeywordAt (kw : List Char) (s : List Char) : Option (List Char) :=
  match matchLit kw s with
  | none => none
  | some rest =>
    let boundaryOk :=
      match rest with
      | [] => true
      | c :: _ => !(isWordChar c)
    if boundaryOk then
      let ds := (rest.dropWhile isWhiteChar).takeWhile isAsciiDigit
      if ds.isEmpty then none else some ds
    else none

/-- Try each alternative keyword, in the regex's alternation order. -/
def tryKeywordsAt : List (List Char) → List Char → Option (List Char)
  | [], _ => none
  | kw :: rest, s =>
    match tryKeywordAt kw s with
    | some ds => some ds
    | none => tryKeywordsAt rest s

/-- Leftmost-match scan of the subtitle: prevWord records whether the
character before the current position is a word character (for the leading
word boundary). -/
def scanSubtitle (kws : List (List Char)) : Bool → List Char → Option (List Char)
  | _, [] => none
  | prevWord, c :: cs =>
    match (if prevWord then none else tryKeywordsAt kws (c :: cs)) with
    | some ds => some ds
    | none => scanSubtitle kws (isWordChar c) cs

/-- Alternatives of SeasonSubtitleRegex. -/
def seasonKeywords : List (List Char) := ["sezon".data, "season".data]

/-- Alternatives of EpisodeSubtitleRegex. -/
def episodeKeywords : List (List Char) := ["bölüm".data, "bolum".data, "episode".data]

/-- StreamarrCatalogEntry: one playable item of the remote catalog. -/
structure StreamarrCatalogEntry where
  Id : String := ""
  Site : String := ""
  Title : String := ""
  Subtitle : String := ""
  Url : String := ""
  Year : Int := 0
  «Type» : String := ""
  OriginalTitle : Option String := none
  Poster : Option String := none
  Backdrop : Option String := none
  Overview : Option String := none
  TmdbId : Option Int := none
deriving DecidableEq, Repr

namespace StreamarrCatalogEntry

def IsMovie (e : StreamarrCatalogEntry) : Bool := ordIgnoreCaseEq e.«Type» "movie"

def IsEpisode (e : StreamarrCatalogEntry) : Bool := ordIgnoreCaseEq e.«Type» "episode"

/-- Derived SeriesSlug: the slug component of a composite episode id,
falling back to the raw id; empty for non-episodes. -/
def SeriesSlug (e : StreamarrCatalogEntry) : String :=
  if !(IsEpisode e) then ""
  else
    match matchEpisodeId e.Id.data with
    | some (slug, _, _) => String.mk slug
    | none => e.Id

/-- ParseNumberFromSubtitle with the given regex alternatives. -/
def ParseNumberFromSubtitle (e : StreamarrCatalogEntry) (kws : List (List Char)) : Option Int :=
  if isNullOrWhiteSpace e.Subtitle then none
  else
    match scanSubtitle kws false e.Subtitle.data with
    | none => none
    | some ds => parseInt32 ds

/-- Derived SeasonNumber: the season component of a composite episode id
when parsable, else parsed from the subtitle; none for non-episodes. -/
def SeasonNumber (e : StreamarrCatalogEntry) : Option Int :=
  if !(IsEpisode e) then none
  else
    match matchEpisodeId e.Id.data with
    | some (_, sds, _) =>
      match parseInt32 sds with
      | some n => some n
      | none => ParseNumberFromSubtitle e seasonKeywords
    | none => ParseNumberFromSubtitle e seasonKeywords

/-- Derived EpisodeNumber, symmetric to SeasonNumber. -/
def EpisodeNumber (e : StreamarrCatalogEntry) : Option Int :=
  if !(IsEpisode e) then none
  else
    match matchEpisodeId e.Id.data with
    | some (_, _, eds) =>
      match parseInt32 eds with
      | some n => some n
      | none => ParseNumberFromSubtitle e episodeKeywords
    | none => ParseNumberFromSubtitle e episodeKeywords

/-- Season/episode confirmation: a supplied query number fails the match
only when the entry's derived number is also present and differs. -/
def MatchesEpisodeNumbers (e : StreamarrCatalogEntry) (season episode : Option Int) : Bool :=
  if (match season, SeasonNumber e with
      | some qs, some es => es != qs
      | _, _ => false) then false
  else if (match episode, EpisodeNumber e with
      | some qe, some ee => ee != qe
      | _, _ => false) then false
  else true

/-- Split on colon into raw segments. -/
def splitSegments : List Char → List (List Char)
  | [] => [[]]
  | c :: cs =>
    let rest := splitSegments cs
    if c == ':' then [] :: rest
    else
      match rest with
      | seg :: more => (c :: seg) :: more
      | [] => [[c]]

/-- Split on colon, removing empty entries (string.Split(':',
StringSplitOptions.RemoveEmptyEntries)). -/
def splitColonRemoveEmpty (s : List Char) : List (List Char) :=
  (splitSegments s).filter (fun seg => !seg.isEmpty)

/-- The entry-side ExtractSeriesSlug: parts[1] when parts[0] is dizibox. -/
def ExtractSeriesSlug (providerId : Option String) : Option String :=
  match providerId with
  | none => none
  | some pid =>
    if isNullOrWhiteSpace pid then none
    else
      match splitColonRemoveEmpty pid.data with
      | p0 :: p1 :: _ =>
        if ordIgnoreCaseEq (String.mk p0) "dizibox" then some (String.mk p1) else none
      | _ => none

/-- TitleMatches: exact ordinal-case-insensitive equality against Title or
OriginalTitle, else substring containment of the query in either. -/
def TitleMatches (e : StreamarrCatalogEntry) (query : Option String) : Bool :=
  match query with
  | none => false
  | some q =>
    if isNullOrWhiteSpace q then false
    else if ordIgnoreCaseEq e.Title q then true
    else if (match e.OriginalTitle with
        | some ot => !(isNullOrWhiteSpace ot) && ordIgnoreCaseEq ot q
        | none => false) then true
    else
      containsIgnoreCase e.Title q ||
        (match e.OriginalTitle with
          | some ot => !(isNullOrWhiteSpace ot) && containsIgnoreCase ot q
          | none => false)

structure MovieInfoLookup where
  Name : Option String := none
  OriginalTitle : Option String := none
  ProviderId : Option String := none
deriving DecidableEq, Repr

structure SeriesInfoLookup where
  Name : Option String := none
  OriginalTitle : Option String := none
  ProviderId : Option String := none
deriving DecidableEq, Repr

structure EpisodeInfoLookup where
  SeriesName : Option String := none
  SeasonNumber : Option Int := none
  EpisodeNumber : Option Int := none
  ProviderId : Option String := none
  SeriesProviderId : Option String := none
deriving DecidableEq, Repr

/-- MatchesMovie: stored provider id equal to the entry id wins, else title
comparison. -/
def MatchesMovie (e : StreamarrCatalogEntry) (lk : MovieInfoLookup) : Bool :=
  if !(IsMovie e) then false
  else if (match lk.ProviderId with
      | some pid => !(isNullOrWhiteSpace pid) && ordIgnoreCaseEq pid e.Id
      | none => false) then true
  else TitleMatches e lk.Name || TitleMatches e lk.OriginalTitle

/-- MatchesSeries: id equality, then slug extracted from the provider id
against the derived SeriesSlug, then title comparison. -/
def MatchesSeries (e : StreamarrCatalogEntry) (lk : SeriesInfoLookup) : Bool :=
  if !(IsEpisode e) then false
  else
    let idBranch :=
      match lk.ProviderId with
      | some pid =>
        if isNullOrWhiteSpace pid then false
        else if ordIgnoreCaseEq pid e.Id then true
        else
          match ExtractSeriesSlug (some pid) with
          | some slug => !slug.isEmpty && ordIgnoreCaseEq slug (SeriesSlug e)
          | none => false
      | none => false
    if idBranch then true
    else TitleMatches e lk.Name || TitleMatches e lk.OriginalTitle

/-- MatchesEpisode: provider-id tier, series-provider-id tier, then series
name screening, then season/episode confirmation.  The some/none wrapper
encodes which branch returned versus fell through, exactly as in the source
control flow. -/
def MatchesEpisode (e : StreamarrCatalogEntry) (lk : EpisodeInfoLookup) : Bool :=
  if !(IsEpisode e) then false
  else
    let viaPid : Option Bool :=
      match lk.ProviderId with
      | some pid =>
        if isNullOrWhiteSpace pid then none
        else if ordIgnoreCaseEq pid e.Id then some true
        else
          match ExtractSeriesSlug (some pid) with
          | some slug =>
            if !slug.isEmpty && ordIgnoreCaseEq slug (SeriesSlug e)
            then some (MatchesEpisodeNumbers e lk.SeasonNumber lk.EpisodeNumber)
            else none
          | none => none
      | none => none
    match viaPid with
    | some b => b
    | none =>
      let viaSeriesPid : Option Bool :=
        match lk.SeriesProviderId with
        | some spid =>
          if isNullOrWhiteSpace spid then none
          else
            match ExtractSeriesSlug (some spid) with
            | some slug =>
              if !slug.isEmpty && ordIgnoreCaseEq slug (SeriesSlug e)
              then some (MatchesEpisodeNumbers e lk.SeasonNumber lk.EpisodeNumber)
              else none
            | none => none
        | none => none
      match viaSeriesPid with
      | some b => b
      | none =>
        if (match lk.SeriesName with
            | some n => !(isNullOrWhiteSpace n) && !(TitleMatches e (some n))
            | none => false) then false
        else MatchesEpisodeNumbers e lk.SeasonNumber lk.EpisodeNumber

end StreamarrCatalogEntry

open StreamarrCatalogEntry

/-- The plugin configuration surface (StreamarrPluginConfiguration), with
its declared defaults. -/
structure StreamarrPluginConfiguration where
  ResolverBaseUrl : String := "http://127.0.0.1:5055"
  ApiKey : String := ""
  CatalogCacheMinutes : Int := 10
  DisableCatalogCache : Bool := false
  EnabledProviders : List String := ["dizibox", "hdfilm"]
deriving DecidableEq, Repr

/-- A string[] value together with the identity of its allocation.  The C#
record struct ResolverClientConfig compares its Providers member with
EqualityComparer of string[], i.e. by reference; references are modelled by
allocation ids, each .ToArray() evaluation receiving a fresh id. -/
structure ProvidersArray where
  allocId : Nat
  items : List String
deriving DecidableEq, Repr

def DefaultProviders : List String := ["dizibox", "hdfilm"]

/-- NormalizeProviders: trim, drop blank, lower-case, de-duplicate
(OrdinalIgnoreCase); a null input or an empty normalized result substitutes
the default provider set.  Always allocates a fresh array. -/
def NormalizeProviders (providers : Option (List String)) (allocId : Nat) : ProvidersArray :=
  match providers with
  | none => ⟨allocId, DefaultProviders⟩
  | some ps =>
    let normalized :=
      (((ps.map trimString).filter (fun p => !(isNullOrWhiteSpace p))).map toLowerInvariant).foldl
        (fun acc s => if acc.any (fun t => ordIgnoreCaseEq t s) then acc else acc ++ [s]) []
    ⟨allocId, if normalized.length > 0 then normalized else DefaultProviders⟩

/-- The readonly record struct ResolverClientConfig. -/
structure ResolverClientConfig where
  BaseUrl : String
  ApiKey : Option String
  CacheMinutes : Int
  DisableCache : Bool
  Providers : ProvidersArray
deriving DecidableEq, Repr

/-- The synthesized record-struct equality: string and scalar members by
value, the Providers string[] member by reference (allocation id). -/
def configRecordEq (a b : ResolverClientConfig) : Bool :=
  a.BaseUrl == b.BaseUrl && a.ApiKey == b.ApiKey && a.CacheMinutes == b.CacheMinutes &&
    a.DisableCache == b.DisableCache && a.Providers.allocId == b.Providers.allocId

/-- Equality of two snapshots by value in the spec's sense: every member,
the providers compared by list contents. -/
def configValueEq (a b : ResolverClientConfig) : Bool :=
  a.BaseUrl == b.BaseUrl && a.ApiKey == b.ApiKey && a.CacheMinutes == b.CacheMinutes &&
    a.DisableCache == b.DisableCache && a.Providers.items == b.Providers.items

/-- NormalizeResolverBase: default when blank, trim, prepend http:// when no
scheme separator, append a trailing slash when missing. -/
def NormalizeResolverBase (value : Option String) : String :=
  let baseUrl :=
    match value with
    | none => "http://127.0.0.1:5055"
    | some v => if isNullOrWhiteSpace v then "http://127.0.0.1:5055" else trimString v
  let b1 := if listHasSub baseUrl.data "://".data then baseUrl else "http://" ++ baseUrl
  if (match b1.data.getLast? with | some c => c == '/' | none => false) then b1 else b1 ++ "/"

/-- GetConfigurationSnapshot: read the live configuration (null when the
plugin instance is absent) and normalize it.  allocId is the fresh
allocation id handed to NormalizeProviders. -/
def GetConfigurationSnapshot (cfg : Option StreamarrPluginConfiguration) (allocId : Nat) :
    ResolverClientConfig :=
  let resolverBase := NormalizeResolverBase (cfg.map (fun c => c.ResolverBaseUrl))
  let apiKey : Option String :=
    match cfg with
    | none => none
    | some c => if isNullOrWhiteSpace c.ApiKey then none else some (trimString c.ApiKey)
  let cacheMinutes :=
    match cfg with
    | none => 10
    | some c => c.CatalogCacheMinutes
  let cacheMinutes := if cacheMinutes < 0 then 0 else cacheMinutes
  { BaseUrl := resolverBase
    ApiKey := match apiKey with | some k => if k == "" then none else some k | none => none
    CacheMinutes := cacheMinutes
    DisableCache := match cfg with | none => false | some c => c.DisableCatalogCache
    Providers := NormalizeProviders (cfg.map (fun c => c.EnabledProviders)) allocId }

/-- The client's mutable fields.  catalogCacheTimestamp of none models
DateTime.MinValue (the reset/default value, never fresh). -/
structure ClientState where
  catalogCache : Option (List StreamarrCatalogEntry) := none
  catalogIndex : Option (List (String × StreamarrCatalogEntry)) := none
  catalogCacheTimestamp : Option Int := none
  lastConfig : Option ResolverClientConfig := none
  enabledProviders : List String := []
deriving DecidableEq, Repr

def initialClientState : ClientState := {}

/-- HashSet.Add with the OrdinalIgnoreCase comparer, modelled as an
insertion-ordered list without case-insensitive duplicates. -/
def hashSetAdd (set : List String) (s : String) : List String :=
  if set.any (fun t => ordIgnoreCaseEq t s) then set else set ++ [s]

/-- EnsureConfigurationSnapshot: when no snapshot was applied yet or the
record-struct equality (configRecordEq) rejects the new one, clear the
cache, the index and the timestamp, rebuild the enabled-provider set and
remember the snapshot. -/
def EnsureConfigurationSnapshot (st : ClientState) (snapshot : ResolverClientConfig) :
    ClientState :=
  let unchanged :=
    match st.lastConfig with
    | none => false
    | some c => configRecordEq c snapshot
  if unchanged then st
  else
    { catalogCache := none
      catalogIndex := none
      catalogCacheTimestamp := none
      enabledProviders := snapshot.Providers.items.foldl hashSetAdd []
      lastConfig := some snapshot }

/-- HashSet.Contains with the OrdinalIgnoreCase comparer. -/
def setContains (set : List String) (s : String) : Bool :=
  set.any (fun t => ordIgnoreCaseEq t s)

/-- ApplyProviderFilter: empty enabled set filters everything out;
otherwise keep entries with a non-blank Site contained in the set. -/
def ApplyProviderFilter (enabled : List String) (entries : List StreamarrCatalogEntry) :
    List StreamarrCatalogEntry :=
  if enabled.isEmpty then []
  else
    let filtered := entries.filter (fun e => !(isNullOrWhiteSpace e.Site) && setContains enabled e.Site)
    if filtered.length > 0 then filtered else []

/-- Dictionary indexer assignment with the OrdinalIgnoreCase comparer:
replace the value under an existing equal key, else append. -/
def indexSet (idx : List (String × StreamarrCatalogEntry)) (key : String)
    (e : StreamarrCatalogEntry) : List (String × StreamarrCatalogEntry) :=
  if idx.any (fun p => ordIgnoreCaseEq p.1 key)
  then idx.map (fun p => if ordIgnoreCaseEq p.1 key then (p.1, e) else p)
  else idx ++ [(key, e)]

/-- One loop iteration of BuildCatalogIndex. -/
def buildIndexStep (idx : List (String × StreamarrCatalogEntry)) (e : StreamarrCatalogEntry) :
    List (String × StreamarrCatalogEntry) :=
  if isNullOrWhiteSpace e.Id then idx else indexSet idx e.Id e

/-- BuildCatalogIndex: id-to-entry map (OrdinalIgnoreCase), skipping blank
ids, later entries overwriting earlier ones. -/
def BuildCatalogIndex (entries : List StreamarrCatalogEntry) :
    List (String × StreamarrCatalogEntry) :=
  entries.foldl buildIndexStep []

/-- Dictionary.TryGetValue with the OrdinalIgnoreCase comparer. -/
def indexTryGetValue (idx : List (String × StreamarrCatalogEntry)) (key : String) :
    Option StreamarrCatalogEntry :=
  (idx.find? (fun p => ordIgnoreCaseEq p.1 key)).map (fun p => p.2)

/-- GetCatalogCacheDuration in minutes: zero when the cache is disabled,
else CacheMinutes clamped to the interval from 1 to 1440. -/
def GetCatalogCacheDuration (s : ResolverClientConfig) : Int :=
  if s.DisableCache then 0 else max 1 (min 1440 s.CacheMinutes)

/-- SetCatalogCache: filter, then atomically replace entries, timestamp and
index; returns the filtered entries. -/
def SetCatalogCache (st : ClientState) (entries : List StreamarrCatalogEntry) (now : Int) :
    ClientState × List StreamarrCatalogEntry :=
  let filtered := ApplyProviderFilter st.enabledProviders entries
  ({ st with
      catalogCache := some filtered
      catalogCacheTimestamp := some now
      catalogIndex := some (BuildCatalogIndex filtered) },
    filtered)

/-- SetCatalogIndex: filter and replace only the index (no timestamp, no
entries); returns the filtered entries. -/
def SetCatalogIndex (st : ClientState) (entries : List StreamarrCatalogEntry) :
    ClientState × List StreamarrCatalogEntry :=
  let filtered := ApplyProviderFilter st.enabledProviders entries
  ({ st with catalogIndex := some (BuildCatalogIndex filtered) }, filtered)

/-- EnsureCatalogIndex: rebuild the index from the cache when the cache
exists and the index does not. -/
def EnsureCatalogIndex (st : ClientState) : ClientState :=
  match st.catalogCache, st.catalogIndex with
  | some c, none => { st with catalogIndex := some (BuildCatalogIndex c) }
  | _, _ => st

/-- What the catalog HTTP GET produces: a parsed body (possibly the JSON
null literal), a transport or deserialization failure, or an observed
cancellation of the caller's token. -/
inductive CatalogFetchOutcome where
  | success (entries : Option (List StreamarrCatalogEntry))
  | failure
  | cancelled
deriving DecidableEq, Repr

/-- The outcome of one client operation: a value, or the
OperationCanceledException propagating to the caller. -/
inductive OpResult (α : Type) where
  | ok (value : α)
  | cancelled
deriving DecidableEq, Repr

/-- Result of one GetCatalogAsync call: the post-state, the returned value
or propagated cancellation, and whether a network fetch was attempted. -/
structure CatalogCall where
  state : ClientState
  result : OpResult (List StreamarrCatalogEntry)
  fetched : Bool
deriving DecidableEq, Repr

/-- The cache-hit test: the cached entries when they exist, the duration is
positive and the timestamp is within it (a MinValue timestamp, modelled as
none, is never fresh). -/
def CachedCatalogIfFresh (st1 : ClientState) (d : Int) (now : Int) :
    Option (List StreamarrCatalogEntry) :=
  match st1.catalogCache, st1.catalogCacheTimestamp with
  | some c, some ts => if d > 0 && now - ts < d then some c else none
  | some _, none => none
  | none, _ => none

/-- GetCatalogAsync: snapshot and invalidation check, cache-hit test under
the effective duration, else fetch; on success cache or index the filtered
entries, on non-cancellation failure fall back to the cached entries when
the duration is positive, else return the empty list; cancellation is
re-raised. -/
def GetCatalogAsync (st : ClientState) (cfg : Option StreamarrPluginConfiguration)
    (allocId : Nat) (now : Int) (net : CatalogFetchOutcome) : CatalogCall :=
  let snapshot := GetConfigurationSnapshot cfg allocId
  let st1 := EnsureConfigurationSnapshot st snapshot
  let d := GetCatalogCacheDuration snapshot
  match CachedCatalogIfFresh st1 d now with
  | some c => { state := EnsureCatalogIndex st1, result := .ok c, fetched := false }
  | none =>
    match net with
    | .cancelled => { state := st1, result := .cancelled, fetched := true }
    | .success (some entries) =>
      if d > 0 then
        let r := SetCatalogCache st1 entries now
        { state := r.1, result := .ok r.2, fetched := true }
      else
        let r := SetCatalogIndex st1 entries
        { state := r.1, result := .ok r.2, fetched := true }
    | _ =>
      if d > 0 then
        match st1.catalogCache with
        | some fb =>
          { state := EnsureCatalogIndex st1
            result := .ok (ApplyProviderFilter st1.enabledProviders fb)
            fetched := true }
        | none => { state := st1, result := .ok [], fetched := true }
      else { state := st1, result := .ok [], fetched := true }

/-- Result of an operation returning at most one entry. -/
structure EntryCall where
  state : ClientState
  result : OpResult (Option StreamarrCatalogEntry)
deriving DecidableEq, Repr

/-- GetEntryByIdAsync: blank ids short-circuit to null; otherwise resolve
the catalog, consult the index, and fall back to a linear scan. -/
def GetEntryByIdAsync (st : ClientState) (cfg : Option StreamarrPluginConfiguration)
    (allocId : Nat) (now : Int) (net : CatalogFetchOutcome) (entryId : Option String) :
    EntryCall :=
  if isNullOrWhiteSpaceOpt entryId then { state := st, result := .ok none }
  else
    match entryId with
    | none => { state := st, result := .ok none }
    | some eid =>
      let call := GetCatalogAsync st cfg allocId now net
      match call.result with
      | .cancelled => { state := call.state, result := .cancelled }
      | .ok catalog =>
        match (match call.state.catalogIndex with
          | some idx => indexTryGetValue idx eid
          | none => none) with
        | some cached => { state := call.state, result := .ok (some cached) }
        | none =>
          { state := call.state
            result := .ok (catalog.find? (fun e => ordIgnoreCaseEq e.Id eid)) }

/-- FindMovieAsync: first movie entry matching the lookup. -/
def FindMovieAsync (st : ClientState) (cfg : Option StreamarrPluginConfiguration)
    (allocId : Nat) (now : Int) (net : CatalogFetchOutcome) (lookup : MovieInfoLookup) :
    EntryCall :=
  let call := GetCatalogAsync st cfg allocId now net
  match call.result with
  | .cancelled => { state := call.state, result := .cancelled }
  | .ok catalog =>
    { state := call.state
      result := .ok (catalog.find? (fun e => IsMovie e && MatchesMovie e lookup)) }

/-- Result of an operation returning a list of entries. -/
structure ListCall where
  state : ClientState
  result : OpResult (List StreamarrCatalogEntry)
deriving DecidableEq, Repr

/-- FindSeriesMatchesAsync: matching episode entries de-duplicated by
series slug (or id when the slug is blank), first entry per group kept. -/
def FindSeriesMatchesAsync (st : ClientState) (cfg : Option StreamarrPluginConfiguration)
    (allocId : Nat) (now : Int) (net : CatalogFetchOutcome) (lookup : SeriesInfoLookup) :
    ListCall :=
  let call := GetCatalogAsync st cfg allocId now net
  match call.result with
  | .cancelled => { state := call.state, result := .cancelled }
  | .ok catalog =>
    let grouped := catalog.foldl
      (fun (acc : List (String × StreamarrCatalogEntry)) e =>
        if !(IsEpisode e) || !(MatchesSeries e lookup) then acc
        else
          let key := if isNullOrWhiteSpace (SeriesSlug e) then e.Id else SeriesSlug e
          if acc.any (fun p => ordIgnoreCaseEq p.1 key) then acc else acc ++ [(key, e)]) []
    { state := call.state, result := .ok (grouped.map (fun p => p.2)) }

/-- FindEpisodeAsync: first episode entry matching the lookup. -/
def FindEpisodeAsync (st : ClientState) (cfg : Option StreamarrPluginConfiguration)
    (allocId : Nat) (now : Int) (net : CatalogFetchOutcome) (lookup : EpisodeInfoLookup) :
    EntryCall :=
  let call := GetCatalogAsync st cfg allocId now net
  match call.result with
  | .cancelled => { state := call.state, result := .cancelled }
  | .ok catalog =>
    { state := call.state
      result := .ok (catalog.find? (fun e => IsEpisode e && MatchesEpisode e lookup)) }

structure StreamarrResolveResponse where
  Token : Option String := none
  StreamUrl : Option String := none
  ExpiresAt : Option String := none
deriving DecidableEq, Repr

/-- What the play/{id} HTTP GET produces. -/
inductive ResolveOutcome where
  | success (response : Option StreamarrResolveResponse)
  | failure
  | cancelled
deriving DecidableEq, Repr

structure ResolveCall where
  state : ClientState
  result : OpResult (Option StreamarrResolveResponse)
deriving DecidableEq, Repr

/-- ResolveStreamAsync: the parsed response on success, null on
non-cancellation failure (logged), cancellation re-raised. -/
def ResolveStreamAsync (st : ClientState) (cfg : Option StreamarrPluginConfiguration)
    (allocId : Nat) (net : ResolveOutcome) : ResolveCall :=
  let snapshot := GetConfigurationSnapshot cfg allocId
  let st1 := EnsureConfigurationSnapshot st snapshot
  match net with
  | .success r => { state := st1, result := .ok r }
  | .failure => { state := st1, result := .ok none }
  | .cancelled => { state := st1, result := .cancelled }

structure ResolverHealthPayload where
  Status : Option String := none
  CacheSize : Option Int := none
deriving DecidableEq, Repr

structure StreamarrHealthStatus where
  IsHealthy : Bool := false
  Summary : String := ""
  CacheSize : Option Int := none
  ResolverBaseUrl : Option String := none
deriving DecidableEq, Repr

/-- What the health HTTP GET produces. -/
inductive HealthOutcome where
  | httpError (statusCode : Int)
  | payload (body : Option ResolverHealthPayload)
  | failure (message : String)
  | cancelled
deriving DecidableEq, Repr

/-- GetHealthAsync: a synthetic unhealthy status on non-success HTTP or on
failure, a payload-derived status on success, cancellation re-raised. -/
def GetHealthAsync (st : ClientState) (cfg : Option StreamarrPluginConfiguration)
    (allocId : Nat) (net : HealthOutcome) : ClientState × OpResult StreamarrHealthStatus :=
  let snapshot := GetConfigurationSnapshot cfg allocId
  let st1 := EnsureConfigurationSnapshot st snapshot
  match net with
  | .httpError code =>
    (st1, .ok { IsHealthy := false, Summary := "HTTP " ++ toString code
                ResolverBaseUrl := some snapshot.BaseUrl })
  | .payload body =>
    (st1, .ok {
      IsHealthy :=
        match body with
        | some q => (match q.Status with | some s => ordIgnoreCaseEq s "ok" | none => false)
        | none => false
      Summary :=
        match body with
        | some q => (match q.Status with | some s => s | none => "unknown")
        | none => "unknown"
      CacheSize := match body with | some q => q.CacheSize | none => none
      ResolverBaseUrl := some snapshot.BaseUrl })
  | .failure msg => (st1, .ok { IsHealthy := false, Summary := msg
                                ResolverBaseUrl := some snapshot.BaseUrl })
  | .cancelled => (st1, .cancelled)

/-- The id lookup of GetEntryByIdAsync answered through the id-to-entry
index built from the resolved catalog (with its linear-scan fallback),
as the code executes it. -/
def GetEntryByIdViaIndex (entries : List StreamarrCatalogEntry) (entryId : Option String) :
    Option StreamarrCatalogEntry :=
  match entryId with
  | none => none
  | some eid =>
    if isNullOrWhiteSpace eid then none
    else
      match indexTryGetValue (BuildCatalogIndex entries) eid with
      | some e => some e
      | none => entries.find? (fun e => ordIgnoreCaseEq e.Id eid)

/-- The same lookup answered by the linear scan alone. -/
def GetEntryByIdViaScan (entries : List StreamarrCatalogEntry) (entryId : Option String) :
    Option StreamarrCatalogEntry :=
  match entryId with
  | none => none
  | some eid =>
    if isNullOrWhiteSpace eid then none
    else entries.find? (fun e => ordIgnoreCaseEq e.Id eid)

/-- Pairwise distinctness of entry ids under ordinal case-insensitive
comparison. -/
def pairwiseDistinctIds : List StreamarrCatalogEntry → Bool
  | [] => true
  | e :: rest => rest.all (fun f => !(ordIgnoreCaseEq e.Id f.Id)) && pairwiseDistinctIds rest

/-- The (key, entry) pair an entry contributes to the catalog index, none
when its id is blank. -/
def indexPair (e : StreamarrCatalogEntry) : Option (String × StreamarrCatalogEntry) :=
  if isNullOrWhiteSpace e.Id then none else some (e.Id, e)

/-- A movie entry of an enabled provider, used as concrete catalog content
in the cache scenarios. -/
def sampleEntry : StreamarrCatalogEntry :=
  { Id := "hdfilm:nobody-2", Site := "hdfilm", Title := "Nobody 2", «Type» := "movie" }

/-- First call: fresh client, default configuration, successful fetch at
minute 0 with providers array allocation 0. -/
def firstCatalogCall : CatalogCall :=
  GetCatalogAsync initialClientState (some {}) 0 0 (.success (some [sampleEntry]))

/-- Second call one minute later with the configuration unchanged in value
(fresh providers array allocation 1), successful fetch. -/
def secondCatalogCall : CatalogCall :=
  GetCatalogAsync firstCatalogCall.state (some {}) 1 1 (.success (some [sampleEntry]))

/-- Second call one minute later with the configuration unchanged in value,
but the fetch failing with a non-cancellation error. -/
def secondCatalogCallFailing : CatalogCall :=
  GetCatalogAsync firstCatalogCall.state (some {}) 1 1 .failure

/-- A configuration whose EnabledProviders list is empty. -/
def emptyProvidersConfig : StreamarrPluginConfiguration := { EnabledProviders := [] }

def diziboxEntry : StreamarrCatalogEntry :=
  { Id := "dizibox:a:s1e2", Site := "dizibox", Title := "A", «Type» := "episode" }

/-- An episode whose id has the composite shape with a site other than
dizibox. -/
def hdfilmCompositeEntry : StreamarrCatalogEntry :=
  { Id := "hdfilm:foo:s1e2", «Type» := "episode" }

/-- An episode whose id is not composite and whose subtitle carries the
Turkish season/episode text. -/
def subtitleEntry : StreamarrCatalogEntry :=
  { Id := "dizibox-kara-sevda", «Type» := "episode", Subtitle := "Sezon 2 Bölüm 5" }

/-- A composite-id episode used to exercise the confirmation rule. -/
def confirmationEntry : StreamarrCatalogEntry :=
  { Id := "dizibox:kara-sevda:s02e05", «Type» := "episode" }

/-- A movie entry with an empty id. -/
def emptyIdMovie : StreamarrCatalogEntry := { Id := "", «Type» := "movie", Title := "Nobody" }

/-- A movie lookup whose stored provider id is the empty string and whose
title differs from the entry's. -/
def emptyIdLookup : MovieInfoLookup := { Name := some "Different", ProviderId := some "" }

def lookupEntryA : StreamarrCatalogEntry := { Id := "hdfilm:a", «Type» := "movie", Title := "A" }

def lookupEntryB : StreamarrCatalogEntry :=
  { Id := "dizibox:b:s1e1", «Type» := "episode", Title := "B" }

end Streamarr

namespace Streamarr

open StreamarrCatalogEntry

/-- Claim C1.  The claim asserts that a second GetCatalogAsync call within
the effective cache duration with the configuration unchanged in value is a
cache hit, with exactly one fetch across the two calls.  The code violates
this: the record-struct snapshot equality compares the Providers array by
reference and NormalizeProviders allocates a fresh array on every call, so
EnsureConfigurationSnapshot clears the cache on every call and the second
call fetches again.  Here the first call fetches, succeeds and populates
the cache at minute 0 with a ten-minute duration, yet the second call at
minute 1 performs a fetch as well: two fetches, not one. -/
theorem c1_second_call_refetches :
    firstCatalogCall.fetched = true ∧
    firstCatalogCall.state.catalogCache = some [sampleEntry] ∧
    firstCatalogCall.state.catalogCacheTimestamp = some 0 ∧
    GetCatalogCacheDuration (GetConfigurationSnapshot (some {}) 1) = 10 ∧
    secondCatalogCall.fetched = true := by decide

/-- Claim C2.  The claim asserts the cache is reset if and only if no prior
snapshot exists or the new snapshot differs by value, and that a value-equal
snapshot leaves the cache state unchanged.  The code violates the
only-if direction: the two snapshots produced by GetConfigurationSnapshot
on consecutive calls with an unchanged configuration are equal in every
value (configValueEq), yet EnsureConfigurationSnapshot resets the entries,
index and timestamp because the synthesized record equality compares the
Providers array by reference. -/
theorem c2_value_equal_snapshot_still_resets :
    configValueEq (GetConfigurationSnapshot (some {}) 0) (GetConfigurationSnapshot (some {}) 1)
      = true ∧
    firstCatalogCall.state.lastConfig = some (GetConfigurationSnapshot (some {}) 0) ∧
    firstCatalogCall.state.catalogCache = some [sampleEntry] ∧
    (EnsureConfigurationSnapshot firstCatalogCall.state
        (GetConfigurationSnapshot (some {}) 1)).catalogCache = none ∧
    (EnsureConfigurationSnapshot firstCatalogCall.state
        (GetConfigurationSnapshot (some {}) 1)).catalogIndex = none ∧
    (EnsureConfigurationSnapshot firstCatalogCall.state
        (GetConfigurationSnapshot (some {}) 1)).catalogCacheTimestamp = none := by decide

/-- Claim C5.  The claim asserts that a non-cancellation fetch failure with
a positive effective cache duration and a previously cached catalog returns
the last cached filtered entries.  The code violates this: the invalidation
check has already cleared the cache (providers array compared by
reference), so the fallback branch finds no cache and the call returns the
empty list even though the previous call cached one entry under a
ten-minute duration. -/
theorem c5_stale_fallback_unreachable :
    firstCatalogCall.state.catalogCache = some [sampleEntry] ∧
    GetCatalogCacheDuration (GetConfigurationSnapshot (some {}) 1) = 10 ∧
    secondCatalogCallFailing.result = .ok [] ∧
    ¬ secondCatalogCallFailing.result = .ok [sampleEntry] := by decide

/-- Claim C3, counterexample.  The claim asserts that an empty configured
EnabledProviders list makes GetCatalogAsync always return an empty list.
In the code NormalizeProviders substitutes the built-in default provider
set for an empty input, so a catalog holding a dizibox entry is returned
intact, not empty. -/
theorem c3_counterexample :
    (GetCatalogAsync initialClientState (some emptyProvidersConfig) 0 0
        (.success (some [diziboxEntry]))).result = .ok [diziboxEntry] ∧
    ¬ (GetCatalogAsync initialClientState (some emptyProvidersConfig) 0 0
        (.success (some [diziboxEntry]))).result = .ok [] := by decide

/-- Claim C3, amended.  An empty configured EnabledProviders list is
normalized to the built-in default provider set, so GetCatalogAsync
returns the fetched entries filtered by the default providers; the empty
result arises only when no entry belongs to a default provider. -/
theorem c3_amended (entries : List StreamarrCatalogEntry) (allocId : Nat) (now : Int) :
    NormalizeProviders (some []) allocId = ⟨allocId, DefaultProviders⟩ ∧
    (GetCatalogAsync initialClientState (some emptyProvidersConfig) allocId now
        (.success (some entries))).result = .ok (ApplyProviderFilter DefaultProviders entries) :=
  ⟨rfl, rfl⟩

/-- Claim C4, counterexample.  The claim asserts the composite id form is
recognized for any site identifier.  The EpisodeIdRegex anchors the site
component to the literal dizibox, so an episode with the composite-shaped
id hdfilm:foo:s1e2 derives SeriesSlug equal to the raw id (not foo) and no
season or episode number. -/
theorem c4_counterexample :
    IsEpisode hdfilmCompositeEntry = true ∧
    SeriesSlug hdfilmCompositeEntry = "hdfilm:foo:s1e2" ∧
    ¬ SeriesSlug hdfilmCompositeEntry = "foo" ∧
    SeasonNumber hdfilmCompositeEntry = none ∧
    EpisodeNumber hdfilmCompositeEntry = none := by decide

/-- Claim C8.  An episode-typed entry whose id is not in the composite form
and whose subtitle is the Turkish text Sezon 2 Bölüm 5 derives season 2 and
episode 5 through the case-insensitive subtitle patterns. -/
theorem c8_subtitle_fallback (e : StreamarrCatalogEntry)
    (hep : IsEpisode e = true) (hid : matchEpisodeId e.Id.data = none)
    (hsub : e.Subtitle = "Sezon 2 Bölüm 5") :
    SeasonNumber e = some 2 ∧ EpisodeNumber e = some 5 := by
  constructor <;>
    simp only [SeasonNumber, EpisodeNumber, hep, hid, ParseNumberFromSubtitle, hsub,
      Bool.not_true, Bool.false_eq_true, if_false] <;> decide

/-- Claim C8, witness at a concrete entry. -/
theorem c8_witness : SeasonNumber subtitleEntry = some 2 ∧ EpisodeNumber subtitleEntry = some 5 :=
  c8_subtitle_fallback subtitleEntry (by decide) (by decide) rfl

/-- Claim C9, counterexample.  The claim quantifies over every lookup whose
stored provider id equals the entry's id under ordinal case-insensitive
comparison; with both equal to the empty string the equality holds, yet
MatchesMovie skips the id branch (the provider id is null-or-whitespace)
and falls through to the failing title comparison. -/
theorem c9_counterexample :
    IsMovie emptyIdMovie = true ∧
    ordIgnoreCaseEq "" emptyIdMovie.Id = true ∧
    emptyIdLookup.ProviderId = some "" ∧
    MatchesMovie emptyIdMovie emptyIdLookup = false := by decide

/-- Claim C9, amended: for a movie-typed entry and a lookup whose stored
provider id is present (not empty, not whitespace-only) and equals the
entry's id under ordinal case-insensitive comparison, MatchesMovie returns
a match regardless of the lookup's titles. -/
theorem c9_id_precedence (e : StreamarrCatalogEntry) (lk : MovieInfoLookup) (pid : String)
    (hm : IsMovie e = true) (hp : lk.ProviderId = some pid)
    (hw : isNullOrWhiteSpace pid = false) (he : ordIgnoreCaseEq pid e.Id = true) :
    MatchesMovie e lk = true := by
  simp [MatchesMovie, hm, hp, hw, he]

/-- Claim C6.  For every network-bound operation, when the operation
reaches the network (for the catalog-based operations: the cache-hit test
missed, witnessed by the fetched flag) and the fetch observes a
caller-initiated cancellation, the cancellation is re-raised and never
converted to an empty, null or fallback result. -/
theorem c6_cancellation_propagates (st : ClientState)
    (cfg : Option StreamarrPluginConfiguration) (allocId : Nat) (now : Int)
    (eid : String) (mlk : MovieInfoLookup) (slk : SeriesInfoLookup)
    (elk : EpisodeInfoLookup)
    (hid : isNullOrWhiteSpace eid = false)
    (hf : (GetCatalogAsync st cfg allocId now .cancelled).fetched = true) :
    (GetCatalogAsync st cfg allocId now .cancelled).result = .cancelled ∧
    (GetEntryByIdAsync st cfg allocId now .cancelled (some eid)).result = .cancelled ∧
    (FindMovieAsync st cfg allocId now .cancelled mlk).result = .cancelled ∧
    (FindSeriesMatchesAsync st cfg allocId now .cancelled slk).result = .cancelled ∧
    (FindEpisodeAsync st cfg allocId now .cancelled elk).result = .cancelled ∧
    (ResolveStreamAsync st cfg allocId .cancelled).result = .cancelled ∧
    (GetHealthAsync st cfg allocId .cancelled).2 = .cancelled := by
  have hmain : (GetCatalogAsync st cfg allocId now .cancelled).result = .cancelled := by
    cases hc : CachedCatalogIfFresh
        (EnsureConfigurationSnapshot st (GetConfigurationSnapshot cfg allocId))
        (GetCatalogCacheDuration (GetConfigurationSnapshot cfg allocId)) now with
    | none => simp [GetCatalogAsync, hc]
    | some c => exact absurd hf (by simp [GetCatalogAsync, hc])
  refine ⟨hmain, ?_, ?_, ?_, ?_, ?_, ?_⟩
  · simp [GetEntryByIdAsync, isNullOrWhiteSpaceOpt, hid, hmain]
  · simp [FindMovieAsync, hmain]
  · simp [FindSeriesMatchesAsync, hmain]
  · simp [FindEpisodeAsync, hmain]
  · simp [ResolveStreamAsync]
  · simp [GetHealthAsync]

/-- Claim C6, witness on a fresh client (whose first call always misses the
cache and therefore fetches). -/
theorem c6_witness :
    (GetCatalogAsync initialClientState (some {}) 0 0 .cancelled).result = .cancelled ∧
    (GetEntryByIdAsync initialClientState (some {}) 0 0 .cancelled (some "x")).result
      = .cancelled ∧
    (FindMovieAsync initialClientState (some {}) 0 0 .cancelled {}).result = .cancelled ∧
    (FindSeriesMatchesAsync initialClientState (some {}) 0 0 .cancelled {}).result
      = .cancelled ∧
    (FindEpisodeAsync initialClientState (some {}) 0 0 .cancelled {}).result = .cancelled ∧
    (ResolveStreamAsync initialClientState (some {}) 0 .cancelled).result = .cancelled ∧
    (GetHealthAsync initialClientState (some {}) 0 .cancelled).2 = .cancelled :=
  c6_cancellation_propagates initialClientState (some {}) 0 0 "x" {} {} {}
    (by decide) (by decide)

/-- Claim C7.  The season/episode confirmation rule: the confirmation is
false exactly when a supplied query number meets a present derived number
that differs; an absent query field or absent derived field never blocks.
Moreover, for an episode entry, MatchesEpisode on a lookup carrying only
season/episode numbers reduces to this confirmation. -/
theorem c7_confirmation_rule (e : StreamarrCatalogEntry) (qs qe : Option Int) :
    (MatchesEpisodeNumbers e qs qe = false ↔
      (∃ q d, qs = some q ∧ SeasonNumber e = some d ∧ ¬ d = q) ∨
      (∃ q d, qe = some q ∧ EpisodeNumber e = some d ∧ ¬ d = q)) ∧
    (IsEpisode e = true →
      MatchesEpisode e ⟨none, qs, qe, none, none⟩ = MatchesEpisodeNumbers e qs qe) := by
  constructor
  · cases qs <;> cases qe <;> cases hs : SeasonNumber e <;> cases he : EpisodeNumber e <;>
      simp [MatchesEpisodeNumbers, hs, he, bne_iff_ne] <;>
      constructor <;> intro h <;> tauto
  · intro hep
    simp [MatchesEpisode, hep]

/-- Claim C7, witness: a composite-id entry with derived season 2 blocks a
query for season 3, and MatchesEpisode on a numbers-only lookup agrees with
the confirmation rule. -/
theorem c7_witness :
    MatchesEpisodeNumbers confirmationEntry (some 3) none = false ∧
    MatchesEpisode confirmationEntry ⟨none, some 2, none, none, none⟩
      = MatchesEpisodeNumbers confirmationEntry (some 2) none := by
  constructor
  · exact ((c7_confirmation_rule confirmationEntry (some 3) none).1).mpr
      (Or.inl ⟨3, 2, rfl, by decide, by decide⟩)
  · exact (c7_confirmation_rule confirmationEntry (some 2) none).2 (by decide)

/-- Claim C9, witness: the spec's tie-break example with a different title. -/
theorem c9_witness :
    MatchesMovie { Id := "hdfilm:nobody-2", «Type» := "movie", Title := "Nobody 2" }
      { Name := some "Totally Different", OriginalTitle := none,
        ProviderId := some "HDFILM:NOBODY-2" } = true :=
  c9_id_precedence _ _ "HDFILM:NOBODY-2" (by decide) rfl (by decide) (by decide)

/-- Case folding maps no character into or out of the whitespace set. -/
theorem isWhiteCode_foldCode (c : Char) : isWhiteCode (foldCode c) = isWhiteCode c.toNat := by
  unfold foldCode
  by_cases h : (65 ≤ c.toNat ∧ c.toNat ≤ 90) ∨ (192 ≤ c.toNat ∧ c.toNat ≤ 214) ∨
      (216 ≤ c.toNat ∧ c.toNat ≤ 222)
  · rw [if_pos h]
    unfold isWhiteCode
    rw [decide_eq_false (by omega), decide_eq_false (by omega)]
  · rw [if_neg h]

/-- Lists with equal foldings agree on being all-whitespace. -/
theorem all_white_of_foldEq :
    ∀ (xs ys : List Char), xs.map foldCode = ys.map foldCode →
      xs.all isWhiteChar = ys.all isWhiteChar := by
  intro xs
  induction xs with
  | nil =>
    intro ys h
    cases ys with
    | nil => rfl
    | cons y ys => simp at h
  | cons x xs ih =>
    intro ys h
    cases ys with
    | nil => simp at h
    | cons y ys =>
      simp only [List.map_cons, List.cons.injEq] at h
      obtain ⟨h1, h2⟩ := h
      have hx : isWhiteChar x = isWhiteChar y := by
        unfold isWhiteChar
        rw [← isWhiteCode_foldCode x, ← isWhiteCode_foldCode y, h1]
      simp only [List.all_cons, hx, ih ys h2]

/-- Ordinal case-insensitive equal strings agree on being blank. -/
theorem ordEq_white {a b : String} (h : ordIgnoreCaseEq a b = true) :
    isNullOrWhiteSpace a = isNullOrWhiteSpace b := by
  unfold ordIgnoreCaseEq at h
  exact all_white_of_foldEq _ _ (eq_of_beq h)

theorem any_false_of {α : Type} {p : α → Bool} :
    ∀ {l : List α}, (∀ x ∈ l, p x = false) → l.any p = false := by
  intro l
  induction l with
  | nil => intro _; rfl
  | cons a l ih =>
    intro h
    simp only [List.any_cons, h a (List.mem_cons_self a l), Bool.false_or]
    exact ih (fun x hx => h x (List.mem_cons_of_mem a hx))

/-- Inserting under a key absent from the index appends. -/
theorem indexSet_append {idx : List (String × StreamarrCatalogEntry)} {key : String}
    {e : StreamarrCatalogEntry} (h : ∀ p ∈ idx, ordIgnoreCaseEq p.1 key = false) :
    indexSet idx key e = idx ++ [(key, e)] := by
  unfold indexSet
  have : idx.any (fun p => ordIgnoreCaseEq p.1 key) = false := any_false_of h
  simp [this]

/-- Folding the index build over entries whose ids collide neither with the
accumulator nor with each other just appends one pair per non-blank id. -/
theorem buildIndex_fresh :
    ∀ (entries : List StreamarrCatalogEntry) (idx : List (String × StreamarrCatalogEntry)),
      pairwiseDistinctIds entries = true →
      (∀ p ∈ idx, ∀ e ∈ entries, ordIgnoreCaseEq p.1 e.Id = false) →
      entries.foldl buildIndexStep idx = idx ++ entries.filterMap indexPair := by
  intro entries
  induction entries with
  | nil => intro idx _ _; simp
  | cons e rest ih =>
    intro idx hdist hfresh
    have hd : rest.all (fun f => !(ordIgnoreCaseEq e.Id f.Id)) = true ∧
        pairwiseDistinctIds rest = true := by
      simpa [pairwiseDistinctIds, Bool.and_eq_true] using hdist
    by_cases hws : isNullOrWhiteSpace e.Id = true
    · rw [List.foldl_cons]
      have hstep : buildIndexStep idx e = idx := by simp [buildIndexStep, hws]
      rw [hstep, ih idx hd.2 (fun p hp f hf => hfresh p hp f (List.mem_cons_of_mem e hf))]
      simp [indexPair, hws]
    · have hwf : isNullOrWhiteSpace e.Id = false := by
        revert hws; cases isNullOrWhiteSpace e.Id <;> simp
      rw [List.foldl_cons]
      have hstep : buildIndexStep idx e = idx ++ [(e.Id, e)] := by
        rw [buildIndexStep, if_neg (by simp [hwf])]
        exact indexSet_append (fun p hp => hfresh p hp e (List.mem_cons_self e rest))
      rw [hstep]
      have hfresh' : ∀ p ∈ idx ++ [(e.Id, e)], ∀ f ∈ rest, ordIgnoreCaseEq p.1 f.Id = false := by
        intro p hp f hf
        rcases List.mem_append.mp hp with hp1 | hp2
        · exact hfresh p hp1 f (List.mem_cons_of_mem e hf)
        · have hpe : p = (e.Id, e) := by simpa using hp2
          subst hpe
          have := (List.all_eq_true.mp hd.1) f hf
          simpa using this
      rw [ih (idx ++ [(e.Id, e)]) hd.2 hfresh']
      simp [indexPair, hwf, List.append_assoc]

/-- Under pairwise-distinct ids, the index lookup agrees with the linear
scan on a non-blank key. -/
theorem indexLookup_filterMap :
    ∀ (entries : List StreamarrCatalogEntry) (eid : String),
      isNullOrWhiteSpace eid = false →
      indexTryGetValue (entries.filterMap indexPair) eid
        = entries.find? (fun e => ordIgnoreCaseEq e.Id eid) := by
  intro entries
  induction entries with
  | nil => intro eid _; rfl
  | cons e rest ih =>
    intro eid hws
    by_cases hw : isNullOrWhiteSpace e.Id = true
    · have hne : ordIgnoreCaseEq e.Id eid = false := by
        cases hor : ordIgnoreCaseEq e.Id eid
        · rfl
        · have heq := ordEq_white hor
          rw [hw, hws] at heq
          exact absurd heq (by decide)
      rw [List.filterMap_cons]
      have : indexPair e = none := by simp [indexPair, hw]
      rw [this, List.find?_cons_of_neg _ (by simp [hne])]
      exact ih eid hws
    · have hwf : isNullOrWhiteSpace e.Id = false := by
        revert hw; cases isNullOrWhiteSpace e.Id <;> simp
      rw [List.filterMap_cons]
      have hpair : indexPair e = some (e.Id, e) := by simp [indexPair, hwf]
      rw [hpair]
      cases hq : ordIgnoreCaseEq e.Id eid
      · rw [List.find?_cons_of_neg _ (by simp [hq])]
        unfold indexTryGetValue
        rw [List.find?_cons_of_neg _ (by simp [hq])]
        exact ih eid hws
      · unfold indexTryGetValue
        rw [List.find?_cons_of_pos _ (by simp [hq]), List.find?_cons_of_pos _ (by simp [hq])]
        rfl

/-- Claim C10.  For a resolved catalog with pairwise distinct ids (ordinal,
case-insensitive), GetEntryByIdAsync answered through the id-to-entry index
(with its linear-scan fallback) agrees with the pure linear scan; a null or
blank queried id returns none; and any returned entry has the queried id. -/
theorem c10_refinement (entries : List StreamarrCatalogEntry) (entryId : Option String)
    (hdist : pairwiseDistinctIds entries = true) :
    GetEntryByIdViaIndex entries entryId = GetEntryByIdViaScan entries entryId ∧
    GetEntryByIdViaIndex entries none = none ∧
    (∀ s, isNullOrWhiteSpace s = true → GetEntryByIdViaIndex entries (some s) = none) ∧
    (∀ s e, GetEntryByIdViaScan entries (some s) = some e →
      ordIgnoreCaseEq e.Id s = true) := by
  refine ⟨?_, rfl, ?_, ?_⟩
  · cases entryId with
    | none => rfl
    | some eid =>
      by_cases hws : isNullOrWhiteSpace eid = true
      · simp [GetEntryByIdViaIndex, GetEntryByIdViaScan, hws]
      · have hwf : isNullOrWhiteSpace eid = false := by
          revert hws; cases isNullOrWhiteSpace eid <;> simp
        have hbi : BuildCatalogIndex entries = entries.filterMap indexPair := by
          have := buildIndex_fresh entries [] hdist (by intro p hp; cases hp)
          simpa [BuildCatalogIndex] using this
        simp only [GetEntryByIdViaIndex, GetEntryByIdViaScan, hwf, Bool.false_eq_true,
          if_false]
        rw [hbi, indexLookup_filterMap entries eid hwf]
        cases hF : entries.find? (fun e => ordIgnoreCaseEq e.Id eid) <;> simp [hF]
  · intro s hs
    simp [GetEntryByIdViaIndex, hs]
  · intro s e h
    by_cases hws : isNullOrWhiteSpace s = true
    · simp [GetEntryByIdViaScan, hws] at h
    · simp only [GetEntryByIdViaScan, hws, Bool.false_eq_true, if_false] at h
      have hp := List.find?_some h
      simpa using hp

/-- A literal pattern consumes exactly a segment whose folding equals the
pattern's folding. -/
theorem matchLit_foldEq :
    ∀ (ks xs rest : List Char), xs.map foldCode = ks.map foldCode →
      matchLit ks (xs ++ rest) = some rest := by
  intro ks
  induction ks with
  | nil =>
    intro xs rest h
    have hx : xs = [] := by
      cases xs with
      | nil => rfl
      | cons a l => simp at h
    subst hx
    rfl
  | cons k ks ih =>
    intro xs rest h
    cases xs with
    | nil => simp at h
    | cons x xs =>
      simp only [List.map_cons, List.cons.injEq] at h
      obtain ⟨h1, h2⟩ := h
      simp only [List.cons_append, matchLit, h1, beq_self_eq_true, if_true]
      exact ih xs rest h2

/-- splitColon cuts exactly at the first colon. -/
theorem splitColon_append :
    ∀ (slug tail : List Char), ':' ∉ slug →
      splitColon (slug ++ ':' :: tail) = some (slug, tail) := by
  intro slug
  induction slug with
  | nil => intro tail _; simp [splitColon]
  | cons c cs ih =>
    intro tail h
    have hc : (c == ':') = false := by
      cases hcc : c == ':'
      · rfl
      · exfalso
        apply h
        rw [eq_of_beq hcc]
        exact List.mem_cons_self ':' cs
    simp only [List.cons_append, splitColon, hc, Bool.false_eq_true, if_false, List.append_eq]
    rw [ih tail (fun hm => h (List.mem_cons_of_mem c hm))]

/-- takeWhile and dropWhile across a satisfying run followed by a failing
element. -/
theorem takeWhile_append_stop {p : Char → Bool} :
    ∀ (xs : List Char) (y : Char) (ys : List Char),
      (∀ c ∈ xs, p c = true) → p y = false →
      (xs ++ y :: ys).takeWhile p = xs ∧ (xs ++ y :: ys).dropWhile p = y :: ys := by
  intro xs
  induction xs with
  | nil =>
    intro y ys _ hy
    constructor <;> simp [List.takeWhile_cons, List.dropWhile_cons, hy]
  | cons x xs ih =>
    intro y ys hall hy
    have hx : p x = true := hall x (List.mem_cons_self x xs)
    obtain ⟨h1, h2⟩ := ih y ys (fun c hc => hall c (List.mem_cons_of_mem x hc)) hy
    constructor <;> simp [List.takeWhile_cons, List.dropWhile_cons, hx, h1, h2]

/-- takeWhile and dropWhile on an entirely satisfying list. -/
theorem takeWhile_all_of {p : Char → Bool} :
    ∀ (xs : List Char), (∀ c ∈ xs, p c = true) →
      xs.takeWhile p = xs ∧ xs.dropWhile p = [] := by
  intro xs
  induction xs with
  | nil => intro _; exact ⟨rfl, rfl⟩
  | cons x xs ih =>
    intro hall
    have hx : p x = true := hall x (List.mem_cons_self x xs)
    obtain ⟨h1, h2⟩ := ih (fun c hc => hall c (List.mem_cons_of_mem x hc))
    constructor <;> simp [List.takeWhile_cons, List.dropWhile_cons, hx, h1, h2]

/-- The EpisodeIdRegex model accepts exactly the composite form with a
dizibox site (up to case), a non-empty colon-free slug and non-empty digit
runs, capturing the three components. -/
theorem matchEpisodeId_composite (site slug sds eds : List Char)
    (hsite : site.map foldCode = "dizibox".data.map foldCode)
    (hslug : slug ≠ []) (hnc : ':' ∉ slug)
    (hsds : sds ≠ []) (hsdig : ∀ c ∈ sds, isAsciiDigit c = true)
    (heds : eds ≠ []) (hedig : ∀ c ∈ eds, isAsciiDigit c = true) :
    matchEpisodeId (site ++ ':' :: slug ++ ':' :: 's' :: (sds ++ 'e' :: eds))
      = some (slug, sds, eds) := by
  have h1 : matchLit "dizibox:".data
      (site ++ ':' :: slug ++ ':' :: 's' :: (sds ++ 'e' :: eds))
      = some (slug ++ ':' :: 's' :: (sds ++ 'e' :: eds)) := by
    have hmap : (site ++ [':']).map foldCode = "dizibox:".data.map foldCode := by
      rw [List.map_append, hsite]
      decide
    have := matchLit_foldEq "dizibox:".data (site ++ [':'])
      (slug ++ ':' :: 's' :: (sds ++ 'e' :: eds)) hmap
    simpa [List.append_assoc] using this
  have h2 : splitColon (slug ++ ':' :: 's' :: (sds ++ 'e' :: eds))
      = some (slug, 's' :: (sds ++ 'e' :: eds)) :=
    splitColon_append slug ('s' :: (sds ++ 'e' :: eds)) hnc
  have hslugE : slug.isEmpty = false := by
    cases slug with
    | nil => exact absurd rfl hslug
    | cons a l => rfl
  obtain ⟨ht1, hd1⟩ := takeWhile_append_stop (p := isAsciiDigit) sds 'e' eds hsdig (by decide)
  have hsdsE : sds.isEmpty = false := by
    cases sds with
    | nil => exact absurd rfl hsds
    | cons a l => rfl
  obtain ⟨ht2, hd2⟩ := takeWhile_all_of (p := isAsciiDigit) eds hedig
  have hedsE : eds.isEmpty = false := by
    cases eds with
    | nil => exact absurd rfl heds
    | cons a l => rfl
  simp only [matchEpisodeId, h1, h2, hslugE, Bool.false_eq_true, if_false, ht1, hd1, ht2, hd2,
    hsdsE, hedsE, beq_self_eq_true, if_true, List.isEmpty_nil]

/-- Claim C4, amended.  The derived identity fields parse the composite id
form exactly when the site component is dizibox (case-insensitively): an
episode entry whose id is site:slug:s(season digits)e(episode digits) with
a dizibox-folding site, a non-empty colon-free slug and Int32-bounded digit
runs derives SeriesSlug, SeasonNumber and EpisodeNumber from the
components; an episode entry whose id is not of the recognized composite
form falls back to the raw id as SeriesSlug. -/
theorem c4_amended (site slug sds eds : List Char) (e : StreamarrCatalogEntry)
    (hsite : site.map foldCode = "dizibox".data.map foldCode)
    (hslug : slug ≠ []) (hnc : ':' ∉ slug)
    (hsds : sds ≠ []) (hsdig : ∀ c ∈ sds, isAsciiDigit c = true)
    (heds : eds ≠ []) (hedig : ∀ c ∈ eds, isAsciiDigit c = true)
    (hsb : digitsVal sds ≤ 2147483647) (heb : digitsVal eds ≤ 2147483647)
    (htype : IsEpisode e = true)
    (hid : e.Id.data = site ++ ':' :: slug ++ ':' :: 's' :: (sds ++ 'e' :: eds)) :
    SeriesSlug e = String.mk slug ∧
    SeasonNumber e = some (Int.ofNat (digitsVal sds)) ∧
    EpisodeNumber e = some (Int.ofNat (digitsVal eds)) ∧
    (∀ f : StreamarrCatalogEntry, IsEpisode f = true → matchEpisodeId f.Id.data = none →
      SeriesSlug f = f.Id) := by
  have hm : matchEpisodeId e.Id.data = some (slug, sds, eds) := by
    rw [hid]
    exact matchEpisodeId_composite site slug sds eds hsite hslug hnc hsds hsdig heds hedig
  refine ⟨?_, ?_, ?_, ?_⟩
  · simp [SeriesSlug, htype, hm]
  · simp [SeasonNumber, htype, hm, parseInt32, hsb]
  · simp [EpisodeNumber, htype, hm, parseInt32, heb]
  · intro f hf hnone
    simp [SeriesSlug, hf, hnone]

/-- Claim C4, witness at the spec's composite-id example. -/
theorem c4_witness :
    SeriesSlug confirmationEntry = "kara-sevda" ∧
    SeasonNumber confirmationEntry = some 2 ∧
    EpisodeNumber confirmationEntry = some 5 := by
  have h := c4_amended "dizibox".data "kara-sevda".data "02".data "05".data confirmationEntry
    (by decide) (by decide) (by decide) (by decide) (by decide) (by decide) (by decide)
    (by decide) (by decide) (by decide) (by decide)
  exact ⟨h.1.trans (by decide), h.2.1.trans (by decide), h.2.2.1.trans (by decide)⟩

/-- Claim C10, witness: a two-entry catalog with distinct ids, queried with
a differently-cased id. -/
theorem c10_witness :
    GetEntryByIdViaIndex [lookupEntryA, lookupEntryB] (some "HDFILM:A")
      = GetEntryByIdViaScan [lookupEntryA, lookupEntryB] (some "HDFILM:A") :=
  (c10_refinement [lookupEntryA, lookupEntryB] (some "HDFILM:A") (by decide)).1

end Streamarr
